import Mathlib

/-!
# Verification of `starred` (src/starred/starred.py)

A shallow embedding of the `starred` command-line pipeline: fetching a
user's starred repositories, grouping them by language, sorting, change
detection against a pickled snapshot, markdown rendering, and publishing
to a remote repository.  Pure computations are embedded as Lean
functions; the effectful run (file system, stdout redirection, remote
GitHub calls) is embedded as an explicit state transformer over a
`RunState` record, with the external collaborators (the GitHub API and
the `terminaltables` library) modelled by environment records.
-/

namespace Starred

open List

/-- A starred repository as yielded by the external GitHub API iterator
(`gh.starred_by(username)`).  `description` and `language` are optional,
mirroring fields that may be `None` in the API response. -/
structure Repo where
  name : String
  html_url : String
  description : Option String
  owner_login : String
  stargazers_count : Nat
  language : Option String
deriving Repr, DecidableEq

/-- The `--sort` CLI choice: one of `date` (default), `name`, `stars`. -/
inductive SortMode where
  | date
  | name
  | stars
deriving Repr, DecidableEq

/-- The `--type` CLI choice: `table` (default) or `list`. -/
inductive OutType where
  | table
  | list
deriving Repr, DecidableEq

/-- One element of `repo_dict[language]`: the Python list
`[s.name, s.html_url, description.strip(), s.owner.login,
s.stargazers_count, star_order]`. -/
structure Entry where
  name : String
  url : String
  description : String
  owner : String
  stars : Nat
  order : Nat
deriving Repr, DecidableEq

/-- Embedding of Python's single-character `str.replace(c, r)`:
every occurrence of the character `c` is replaced by the string `r`. -/
def replaceChar (c : Char) (r : String) (s : String) : String :=
  String.join (s.toList.map (fun a => if a = c then r else String.singleton a))

/-- Code-point lexicographic comparison of character lists, the order
Python uses to compare strings. -/
def lexLe : List Char → List Char → Bool
  | [], _ => true
  | _ :: _, [] => false
  | a :: as, b :: bs =>
    if a.toNat < b.toNat then true
    else if b.toNat < a.toNat then false
    else lexLe as bs

/-- Python's `<=` on strings: code-point lexicographic order. -/
def strLe (a b : String) : Bool :=
  lexLe a.toList b.toList

/-- Embedding of Python's `str.strip()` with no argument: remove
leading and trailing whitespace characters. -/
def stripStr (s : String) : String :=
  (((s.toList.dropWhile Char.isWhitespace).reverse.dropWhile
      Char.isWhitespace).reverse).asString

/-- `html_escape` from the source: each character is looked up in
`html_escape_table` (which maps `>` to `&gt;` and `<` to `&lt;`) and
left unchanged when absent from the table. -/
def html_escape (text : String) : String :=
  String.join (text.toList.map (fun c =>
    if c = '>' then "&gt;" else if c = '<' then "&lt;" else String.singleton c))

/-- The description stored into `repo_dict`:
`html_escape(s.description).replace('\n', '') if s.description else ''`
followed by `.strip()` at the point of use.  Python's truthiness test
makes both `None` and the empty string fall to `''`. -/
def sanitizeDescription : Option String → String
  | none => ""
  | some s => if s = "" then "" else stripStr (replaceChar '\n' "" (html_escape s))

/-- `s.language or 'Others'`: Python's `or` replaces both `None` and the
empty string by the sentinel `'Others'`. -/
def orLanguage : Option String → String
  | none => "Others"
  | some s => if s = "" then "Others" else s

/-- The `Entry` appended to `repo_dict[language]` for star `s` at fetch
index `order`. -/
def entryOf (s : Repo) (order : Nat) : Entry :=
  { name := s.name
    url := s.html_url
    description := sanitizeDescription s.description
    owner := s.owner_login
    stars := s.stargazers_count
    order := order }

/-- Appending a value under a key in an insertion-ordered mapping
(Python `dict`): if the key is present its list grows at the end,
otherwise the key is added at the end of the mapping. -/
def insertGrouped (k : String) (v : α) : List (String × List α) → List (String × List α)
  | [] => [(k, [v])]
  | g :: rest => if g.1 = k then (g.1, g.2 ++ [v]) :: rest else g :: insertGrouped k v rest

/-- A reduced snapshot: for each language the ordered `[name, html_url]`
pairs, as pickled into `starred-repo.pkl`. -/
abbrev Snapshot := List (String × List (String × String))

/-- The fetch loop of `starred`: builds `repo_dict` and `new_dict` while
incrementing `star_order`, starting from the given accumulators. -/
def buildAux : List Repo → Nat → List (String × List Entry) → Snapshot →
    List (String × List Entry) × Snapshot
  | [], _, rd, nd => (rd, nd)
  | s :: rest, order, rd, nd =>
    buildAux rest (order + 1)
      (insertGrouped (orLanguage s.language) (entryOf s order) rd)
      (insertGrouped (orLanguage s.language) (s.name, s.html_url) nd)

/-- `repo_dict` and `new_dict` after the fetch loop (before key sorting). -/
def buildDicts (stars : List Repo) : List (String × List Entry) × Snapshot :=
  buildAux stars 0 [] []

/-- The ordering on mapping items used by
`sorted(d.items(), key=lambda l: l[0])`: compare the string keys. -/
def keyLe (a b : String × α) : Prop :=
  strLe a.1 b.1 = true

/-- Comparison used by `sorted(key=lambda l: l[0])` inside a group:
ascending repository name. -/
def nameLe (a b : Entry) : Prop :=
  strLe a.name b.name = true

/-- Comparison used by `sorted(key=lambda l: l[5])`: ascending fetch
(star-order) index. -/
def dateLe (a b : Entry) : Prop :=
  a.order ≤ b.order

/-- Comparison realised by `sorted(key=lambda l: l[4], reverse=True)`:
descending star count. -/
def starsGe (a b : Entry) : Prop :=
  b.stars ≤ a.stars

instance : DecidableRel (keyLe (α := α)) := fun a b => by
  unfold keyLe; infer_instance

instance : DecidableRel nameLe := fun a b => by
  unfold nameLe; infer_instance

instance : DecidableRel dateLe := fun a b => by
  unfold dateLe; infer_instance

instance : DecidableRel starsGe := fun a b => by
  unfold starsGe; infer_instance

/-- `OrderedDict(sorted(d.items(), key=lambda l: l[0]))`: a stable sort
of the mapping's items by key.  Python's `sorted` is a stable sort, so
it is embedded as insertion sort, which is stable. -/
def sortByKey (d : List (String × α)) : List (String × α) :=
  d.insertionSort keyLe

/-- The within-group sort for each `--sort` mode.  Python's `sorted` is
a stable sort; `reverse=True` keeps the relative order of equal keys,
which insertion sort on the reversed comparison also does. -/
def sortEntries (mode : SortMode) (l : List Entry) : List Entry :=
  match mode with
  | SortMode.date => l.insertionSort dateLe
  | SortMode.name => l.insertionSort nameLe
  | SortMode.stars => l.insertionSort starsGe

/-- Sorting every group of the key-sorted `repo_dict` in place. -/
def sortGroups (mode : SortMode) (d : List (String × List Entry)) :
    List (String × List Entry) :=
  d.map (fun g => (g.1, sortEntries mode g.2))

/-- The aggregated, key-sorted, within-group-sorted `repo_dict`. -/
def aggregate (mode : SortMode) (stars : List Repo) : List (String × List Entry) :=
  sortGroups mode (sortByKey (buildDicts stars).1)

/-- The grand total accumulated during the sorting loop:
`total += len(repo_dict[language])` over all groups. -/
def totalOf (mode : SortMode) (stars : List Repo) : Nat :=
  ((aggregate mode stars).map (fun g => g.2.length)).foldl (· + ·) 0

/-- The key-sorted `new_dict` that is compared with, and stored into,
`starred-repo.pkl`. -/
def newSnapshot (stars : List Repo) : Snapshot :=
  sortByKey (buildDicts stars).2

/-! ## Renderer -/

/-- Python's `str.lower()`, character by character. -/
def toLowerStr (s : String) : String :=
  (s.toList.map Char.toLower).asString

/-- Helper for Python's argumentless `str.split()`: cut a character
list at whitespace runs, dropping empty pieces. -/
def splitWordsAux : List Char → List Char → List (List Char)
  | [], acc => if acc.isEmpty then [] else [acc.reverse]
  | c :: cs, acc =>
    if c.isWhitespace then
      if acc.isEmpty then splitWordsAux cs [] else acc.reverse :: splitWordsAux cs []
    else splitWordsAux cs (c :: acc)

/-- Python's argumentless `str.split()`: the whitespace-separated words. -/
def pySplitWs (s : String) : List String :=
  (splitWordsAux s.toList []).map List.asString

/-- The table-of-contents anchor: `'-'.join(language.lower().split())`. -/
def anchor (language : String) : String :=
  String.intercalate "-" (pySplitWs (toLowerStr language))

/-- `badge_url` constant from the source. -/
def badge_url : String :=
  "https://cdn.rawgit.com/sindresorhus/awesome/d7305f38d29fed78fa85652e3a63e154dd8e8829/media/badge.svg"

/-- `awesome_url` constant from the source. -/
def awesome_url : String :=
  "https://github.com/sindresorhus/awesome"

/-- `github_url` constant from the source. -/
def github_url : String :=
  "https://github.com/1132719438/starred"

/-- `count_badge.format(count=..., color=...)`. -/
def count_badge (count : Nat) (color : String) : String :=
  "https://img.shields.io/badge/Total-" ++ toString count ++ "-" ++ color ++ ".svg"

/-- `date_badge.format(today=..., color=...)`. -/
def date_badge (today color : String) : String :=
  "https://img.shields.io/badge/Date-" ++ today ++ "-" ++ color ++ ".svg"

/-- The `desc` header block, formatted with the badge URLs; the date in
the date badge has each `-` doubled. -/
def descStr (total : Nat) (today : String) : String :=
  "# Awesome Stars [![Awesome](" ++ badge_url ++ ")](" ++ awesome_url ++ ")\n\n" ++
  "> A curated list of my GitHub stars!  Generated by [starred](" ++ github_url ++ ").\n\n" ++
  "![Total](" ++ count_badge total "green" ++ ")\n" ++
  "![Date](" ++ date_badge (replaceChar '-' "--" today) "blue" ++ ")\n\n" ++
  "## Contents\n"

/-- The `license_` footer block formatted with the username. -/
def licenseStr (username : String) : String :=
  "\n## License\n\n[![CC0](http://mirrors.creativecommons.org/presskit/buttons/88x31/svg/cc-zero.svg)]" ++
  "(https://creativecommons.org/publicdomain/zero/1.0/)\n\n" ++
  "To the extent possible under law, [" ++ username ++ "](https://github.com/" ++
  username ++ ") has waived all copyright and related or neighboring rights to this work.\n"

/-- One table-of-contents line:
`'  - [{0}({2})](#{1}-{2})'.format(language, anchor, count)`. -/
def tocLine (language : String) (count : Nat) : String :=
  "  - [" ++ language ++ "(" ++ toString count ++ ")](#" ++ anchor language ++
  "-" ++ toString count ++ ")"

/-- One section heading as passed to `click.echo`:
`'## {} ({}) \n'.format(language.replace('#', '# #'), count)`. -/
def headingEcho (language : String) (count : Nat) : String :=
  "## " ++ replaceChar '#' "# #" language ++ " (" ++ toString count ++ ") \n"

/-- The header row inserted into each table:
`['', 'Name', 'Description', 'Owner', 'Stars']`. -/
def headerRow : List String :=
  ["", "Name", "Description", "Owner", "Stars"]

/-- One data row of `info_dict[language]`: 1-based index, markdown
link, sanitized description, owner, star count. -/
def infoRow (index : Nat) (e : Entry) : List String :=
  [toString (index + 1), "[" ++ e.name ++ "](" ++ e.url ++ ")", e.description,
   e.owner, toString e.stars]

/-- `info_dict[language]` before the header row is inserted. -/
def infoRows (entries : List Entry) : List (List String) :=
  entries.enum.map (fun p => infoRow p.1 p.2)

/-- One row of a rendered markdown table. -/
def tableRow (cells : List String) : String :=
  "| " ++ String.intercalate " | " cells ++ " |"

/-- Model of the external `terminaltables` library's
`GithubFlavoredMarkdownTable(...).table`: a GitHub-flavoured markdown
table with a separator under the first (header) row.  The library also
pads the cells to align the columns; that presentational detail of the
external collaborator is not modelled, and no claim depends on it. -/
def markdownTable : List (List String) → String
  | [] => ""
  | header :: rows =>
    String.intercalate "\n"
      (tableRow header :: tableRow (header.map (fun _ => "---")) :: rows.map tableRow)

/-- One bullet line of the `list` output type:
`'- [{}]({}) - {}'.format(*repo)` (the trailing entry fields are unused
by the format string). -/
def listLine (e : Entry) : String :=
  "- [" ++ e.name ++ "](" ++ e.url ++ ") - " ++ e.description

/-- The strings passed to `click.echo` for one language section: the
heading, the table (with header row inserted) or the bullet lines, and
a closing empty echo. -/
def sectionEchoes (ty : OutType) (language : String) (entries : List Entry) :
    List String :=
  headingEcho language entries.length ::
  (match ty with
   | OutType.table => [markdownTable (headerRow :: infoRows entries)]
   | OutType.list => entries.map listLine) ++ [""]

/-- Every string passed to `click.echo` over the whole run, in order:
the header block, the table of contents, a blank line, the per-language
sections (over `info_dict`, which the source re-sorts by key a second
time), and the license block. -/
def renderEchoes (ty : OutType) (username today : String)
    (groups : List (String × List Entry)) (total : Nat) : List String :=
  descStr total today ::
  groups.map (fun g => tocLine g.1 g.2.length) ++ [""] ++
  ((sortByKey groups).map (fun g => sectionEchoes ty g.1 g.2)).flatten ++
  [licenseStr username]

/-- The rendered document: `click.echo` prints each string followed by
a newline. -/
def renderDoc (ty : OutType) (username today : String)
    (groups : List (String × List Entry)) (total : Nat) : String :=
  String.join ((renderEchoes ty username today groups total).map (fun s => s ++ "\n"))

/-! ## The effectful run

`starred` is a single linear procedure.  Its interactions with the file
system, the process stdout and the remote GitHub service are embedded
as explicit state passing over `RunState`, with the external inputs
(fetch outcome, stored snapshot, pre-existing output file, remote
repository state) collected in `Env`. -/

/-- The parsed CLI options of the `starred` command. -/
structure Options where
  username : String
  token : Option String
  sort : SortMode
  repository : String
  message : Option String
  output : String
  launch : Bool
  type : OutType
deriving Repr, DecidableEq

/-- Python's `if not token` test: `None` and the empty string are falsy. -/
def tokenMissing : Option String → Bool
  | none => true
  | some t => t = ""

/-- Python's `if not message` default for the commit message. -/
def commitMessage (message : Option String) (today : String) : String :=
  match message with
  | none => "Add starred " ++ today
  | some m => if m = "" then "Add starred " ++ today else m

/-- The observable state of the target remote repository.  Commit
messages handed to the external GitHub client are not part of the
modelled remote state.  An existing repository is assumed to have a
readable `README.md` (otherwise `rep.readme()` would raise an
exception the source does not handle at that point). -/
structure Remote where
  repoExists : Bool
  archiveToday : Bool
  readme : Option String
deriving Repr, DecidableEq

/-- The outcome of `gh.starred_by(username)`: either the star list, or
a `ForbiddenError` (authorization/access failure). -/
inductive Fetch where
  | forbidden (msg : String)
  | ok (stars : List Repo)
deriving Repr, DecidableEq

/-- The external inputs of one run. -/
structure Env where
  today : String
  fetch : Fetch
  store : Option Snapshot
  outputPrior : Option String
  remote : Remote
deriving Repr, DecidableEq

/-- The observable outcome of one run.  `outputFile` is the content of
the file named by `--output` after the run (`none` when that file does
not exist); `buffer` is the `BytesIO` object replacing stdout in
publish mode; `stdoutText` is what reached the real stdout. -/
structure RunState where
  stderr : List String
  outputFile : Option String
  store : Option Snapshot
  stdoutRedirected : Bool
  buffer : Option String
  stdoutText : String
  remote : Remote
  launched : Bool
deriving Repr, DecidableEq

/-- The state after the output-file prologue: `open(output, 'w')`
creates the file, or truncates it when it already exists. -/
def initState (opts : Options) (env : Env) : RunState :=
  { stderr := []
    outputFile := if stripStr opts.output = "" then env.outputPrior else some ""
    store := env.store
    stdoutRedirected := false
    buffer := none
    stdoutText := ""
    remote := env.remote
    launched := false }

/-- The publish epilogue (`if repo_file:` block): look the repository
up; on a hit, either report today's archive as already committed or
update `README.md` and create the archive; on `NotFoundError`, create
the repository with `README.md` and the archive; finally `click.launch`
when `--launch` was given. -/
def publishStep (opts : Options) (today : String) (doc : String) (st : RunState) : RunState :=
  let st :=
    if st.remote.repoExists then
      if st.remote.archiveToday then
        { st with stderr := st.stderr ++
            ["Error: already commit [/Archives/README-" ++ today ++ ".md]"] }
      else
        { st with remote := { st.remote with readme := some doc, archiveToday := true } }
    else
      { st with remote := { repoExists := true, archiveToday := true, readme := some doc } }
  if opts.launch then { st with launched := true } else st

/-- The change test `operator.eq(old_dict, new_dict)`, guarded by
`os.path.isfile(repo_pkl_path)`: with no stored snapshot the run counts
as changed. -/
def noChangeOf (store : Option Snapshot) (new_dict : Snapshot) : Bool :=
  match store with
  | some old_dict => decide (old_dict = new_dict)
  | none => false

/-- The body of the run after a successful fetch: grouping, change
detection against the pickled snapshot, sorting, rendering, and the
optional publish step. -/
def pipeline (opts : Options) (today : String) (stars : List Repo)
    (st : RunState) : RunState :=
  let publish := opts.repository ≠ ""
  let new_dict := newSnapshot stars
  if noChangeOf st.store new_dict ∧ publish then
    { st with stderr := st.stderr ++
        ["Error: starred repositories not change in " ++ today] }
  else
    let st2 := if noChangeOf st.store new_dict then st
      else { st with store := some new_dict }
    let doc := renderDoc opts.type opts.username today
      (aggregate opts.sort stars) (totalOf opts.sort stars)
    let st3 :=
      if publish then { st2 with buffer := some doc }
      else if stripStr opts.output ≠ "" then { st2 with outputFile := some doc }
      else { st2 with stdoutText := doc }
    if publish then publishStep opts today doc st3 else st3

/-! ## Auxiliary projections used to state the claims -/

/-- All entries of a grouped mapping, each tagged with the key of the
group holding it, in mapping order. -/
def tagged (d : List (String × List Entry)) : List (String × Entry) :=
  (d.map (fun g => g.2.map (fun e => (g.1, e)))).flatten

/-- The records of the fetch loop in fetch order, starting the
`star_order` counter at `n`: each record paired with the language group
key it is filed under. -/
def taggedAux : List Repo → Nat → List (String × Entry)
  | [], _ => []
  | s :: rest, n => (orLanguage s.language, entryOf s n) :: taggedAux rest (n + 1)

/-- The fetched records, as grouped entries tagged with their language
key, in fetch order with fetch indices `0, 1, 2, …`. -/
def taggedEntries (stars : List Repo) : List (String × Entry) :=
  taggedAux stars 0

/-- Formalisation of the words of the spec sentence behind claim C7:
escape a `#` inside a language name "by inserting a space after it". -/
def escapeHashSpec (s : String) : String :=
  String.join (s.toList.map (fun c => if c = '#' then "# " else String.singleton c))

/-- The whole `starred` CLI function as a state transformer. -/
def starred (opts : Options) (env : Env) : RunState :=
  let st := initState opts env
  if opts.repository ≠ "" ∧ tokenMissing opts.token then
    { st with stderr := st.stderr ++ ["Error: create repository need set --token"] }
  else
    let st :=
      if opts.repository ≠ "" then { st with stdoutRedirected := true, buffer := some "" }
      else st
    match env.fetch with
    | Fetch.forbidden msg =>
        { st with stderr := st.stderr ++ ["Error: talk to Github failed: " ++ msg] }
    | Fetch.ok stars => pipeline opts env.today stars st

/-! ## Order lemmas for the comparison relations -/

theorem lexLe_total : ∀ xs ys : List Char, lexLe xs ys = true ∨ lexLe ys xs = true
  | [], _ => Or.inl rfl
  | _ :: _, [] => Or.inr rfl
  | x :: xs, y :: ys => by
    simp only [lexLe]
    rcases Nat.lt_trichotomy x.toNat y.toNat with h | h | h
    · simp [h]
    · simp only [h, Nat.lt_irrefl, if_false, if_neg]
      exact lexLe_total xs ys
    · simp [h, Nat.lt_asymm h]

theorem lexLe_trans : ∀ xs ys zs : List Char,
    lexLe xs ys = true → lexLe ys zs = true → lexLe xs zs = true
  | [], _, _, _, _ => rfl
  | _ :: _, [], _, h, _ => by simp [lexLe] at h
  | _ :: _, _ :: _, [], _, h => by simp [lexLe] at h
  | x :: xs, y :: ys, z :: zs, h1, h2 => by
    simp only [lexLe] at h1 h2 ⊢
    by_cases hxy : x.toNat < y.toNat
    · by_cases hyz : y.toNat < z.toNat
      · simp [Nat.lt_trans hxy hyz]
      · rw [if_neg hyz] at h2
        by_cases hzy : z.toNat < y.toNat
        · rw [if_pos hzy] at h2; exact absurd h2 (by simp)
        · have hxz : x.toNat < z.toNat := by omega
          simp [hxz]
    · rw [if_neg hxy] at h1
      by_cases hyx : y.toNat < x.toNat
      · rw [if_pos hyx] at h1; exact absurd h1 (by simp)
      · rw [if_neg hyx] at h1
        by_cases hyz : y.toNat < z.toNat
        · have hxz : x.toNat < z.toNat := by omega
          simp [hxz]
        · rw [if_neg hyz] at h2
          by_cases hzy : z.toNat < y.toNat
          · rw [if_pos hzy] at h2; exact absurd h2 (by simp)
          · rw [if_neg hzy] at h2
            have hxz : ¬ x.toNat < z.toNat := by omega
            have hzx : ¬ z.toNat < x.toNat := by omega
            rw [if_neg hxz, if_neg hzx]
            exact lexLe_trans xs ys zs h1 h2

instance : IsTotal (String × α) keyLe :=
  ⟨fun a b => lexLe_total a.1.toList b.1.toList⟩

instance : IsTrans (String × α) keyLe :=
  ⟨fun a b c => lexLe_trans a.1.toList b.1.toList c.1.toList⟩

instance : IsTotal Entry nameLe :=
  ⟨fun a b => lexLe_total a.name.toList b.name.toList⟩

instance : IsTrans Entry nameLe :=
  ⟨fun a b c => lexLe_trans a.name.toList b.name.toList c.name.toList⟩

instance : IsTotal Entry dateLe :=
  ⟨fun a b => Nat.le_total a.order b.order⟩

instance : IsTrans Entry dateLe :=
  ⟨fun _ _ _ h h2 => Nat.le_trans h h2⟩

instance : IsTotal Entry starsGe :=
  ⟨fun a b => Nat.le_total b.stars a.stars⟩

instance : IsTrans Entry starsGe :=
  ⟨fun _ _ _ h h2 => Nat.le_trans h2 h⟩

/-! ## Stability infrastructure -/

theorem pair_sublist_of_mem {x y : α} :
    ∀ {l : List α}, x ∈ l → y ∈ l → x ≠ y → [x, y] <+ l ∨ [y, x] <+ l := by
  intro l
  induction l with
  | nil => intro hx; cases hx
  | cons a t ih =>
    intro hx hy hne
    rcases List.mem_cons.mp hx with rfl | hx2
    · rcases List.mem_cons.mp hy with rfl | hy2
      · exact absurd rfl hne
      · exact Or.inl ((List.singleton_sublist.mpr hy2).cons₂ _)
    · rcases List.mem_cons.mp hy with rfl | hy2
      · exact Or.inr ((List.singleton_sublist.mpr hx2).cons₂ _)
      · rcases ih hx2 hy2 hne with h | h
        · exact Or.inl (h.cons a)
        · exact Or.inr (h.cons a)

theorem eq_of_pair_sublists_nodup {x y : α} :
    ∀ {l : List α}, l.Nodup → [x, y] <+ l → [y, x] <+ l → x = y := by
  intro l
  induction l with
  | nil => intro _ h; cases h
  | cons a t ih =>
    intro hnd h1 h2
    have ha : a ∉ t := (List.nodup_cons.mp hnd).1
    have ht : t.Nodup := (List.nodup_cons.mp hnd).2
    cases h1 with
    | cons _ h1 =>
      cases h2 with
      | cons _ h2 => exact ih ht h1 h2
      | cons₂ _ h2 =>
        exact absurd (h1.subset (by simp)) ha
    | cons₂ _ h1 =>
      cases h2 with
      | cons _ h2 =>
        exact absurd (h2.subset (by simp)) ha
      | cons₂ _ h2 => rfl

theorem nodup_of_pairwise_orders {l : List Entry}
    (h : l.Pairwise (fun a b => a.order < b.order)) : l.Nodup :=
  h.imp (fun hab heq => by rw [heq] at hab; exact Nat.lt_irrefl _ hab)

/-- Stability of the `stars` sort: when the group lists its entries in
strictly increasing fetch order, the sorted output keeps equal star
counts in fetch order. -/
theorem insertionSort_starsGe_stable {l : List Entry}
    (hl : l.Pairwise (fun a b => a.order < b.order)) :
    (l.insertionSort starsGe).Pairwise (fun a b => a.stars = b.stars → a.order < b.order) := by
  rw [List.pairwise_iff_forall_sublist]
  intro x y hsub
  intro heq
  have hperm : l.insertionSort starsGe ~ l := List.perm_insertionSort starsGe l
  have hnds : (l.insertionSort starsGe).Nodup :=
    hperm.symm.nodup (nodup_of_pairwise_orders hl)
  have hne : x ≠ y := by
    intro hxy
    subst hxy
    exact (List.nodup_iff_sublist.mp hnds x) hsub
  have hx : x ∈ l := hperm.subset (hsub.subset (List.mem_cons_self x [y]))
  have hy : y ∈ l := hperm.subset (hsub.subset (List.mem_cons_of_mem x (List.mem_singleton_self y)))
  rcases pair_sublist_of_mem hx hy hne with h | h
  · exact List.pairwise_iff_forall_sublist.mp hl h
  · have hyx : starsGe y x := le_of_eq heq
    have : [y, x] <+ l.insertionSort starsGe :=
      List.pair_sublist_insertionSort hyx h
    exact absurd (eq_of_pair_sublists_nodup hnds hsub this) hne

/-! ## Invariants of the grouping loop -/

theorem insertGrouped_orders {n : Nat} {v : Entry} {k : String} (hv : v.order = n) :
    ∀ {d : List (String × List Entry)},
      (∀ g ∈ d, g.2.Pairwise (fun a b => a.order < b.order) ∧ ∀ e ∈ g.2, e.order < n) →
      ∀ g ∈ insertGrouped k v d,
        g.2.Pairwise (fun a b => a.order < b.order) ∧ ∀ e ∈ g.2, e.order < n + 1 := by
  intro d
  induction d with
  | nil =>
    intro _ g hg
    rcases List.mem_singleton.mp hg with rfl
    refine ⟨List.pairwise_singleton _ _, ?_⟩
    intro e he
    rcases List.mem_singleton.mp he with rfl
    omega
  | cons g0 rest ih =>
    intro hd g hg
    by_cases hk : g0.1 = k
    · rw [insertGrouped, if_pos hk] at hg
      rcases List.mem_cons.mp hg with rfl | hg2
      · constructor
        · refine List.pairwise_append.mpr ⟨(hd g0 (List.mem_cons_self _ _)).1,
            List.pairwise_singleton _ _, ?_⟩
          intro a ha b hb
          rcases List.mem_singleton.mp hb with rfl
          have := (hd g0 (List.mem_cons_self _ _)).2 a ha
          omega
        · intro e he
          rcases List.mem_append.mp he with he | he
          · have := (hd g0 (List.mem_cons_self _ _)).2 e he
            omega
          · rcases List.mem_singleton.mp he with rfl
            omega
      · have := hd g (List.mem_cons_of_mem _ hg2)
        exact ⟨this.1, fun e he => Nat.lt_succ_of_lt (this.2 e he)⟩
    · rw [insertGrouped, if_neg hk] at hg
      rcases List.mem_cons.mp hg with rfl | hg2
      · have := hd g (List.mem_cons_self _ _)
        exact ⟨this.1, fun e he => Nat.lt_succ_of_lt (this.2 e he)⟩
      · exact ih (fun g2 hg3 => hd g2 (List.mem_cons_of_mem _ hg3)) g hg2

theorem buildAux_orders :
    ∀ (stars : List Repo) (n : Nat) (rd : List (String × List Entry)) (nd : Snapshot),
      (∀ g ∈ rd, g.2.Pairwise (fun a b => a.order < b.order) ∧ ∀ e ∈ g.2, e.order < n) →
      ∀ g ∈ (buildAux stars n rd nd).1, g.2.Pairwise (fun a b => a.order < b.order)
  | [], _, _, _, hd, g, hg => (hd g hg).1
  | _ :: rest, n, _, _, hd, g, hg =>
    buildAux_orders rest (n + 1) _ _ (insertGrouped_orders rfl hd) g hg

/-- Every group built by the fetch loop lists its entries in strictly
increasing fetch order. -/
theorem build_group_orders {stars : List Repo} :
    ∀ g ∈ (buildDicts stars).1, g.2.Pairwise (fun a b => a.order < b.order) :=
  buildAux_orders stars 0 [] [] (fun g hg => absurd hg (List.not_mem_nil g))

/-- Membership in the aggregated mapping decomposes into a group of the
raw grouping followed by the within-group sort. -/
theorem mem_aggregate {mode : SortMode} {stars : List Repo} {g : String × List Entry}
    (hg : g ∈ aggregate mode stars) :
    ∃ l0, (g.1, l0) ∈ (buildDicts stars).1 ∧ g.2 = sortEntries mode l0 := by
  rcases List.mem_map.mp hg with ⟨g0, hg0, rfl⟩
  exact ⟨g0.2, (List.mem_insertionSort keyLe).mp hg0, rfl⟩

/-! ## Permutation identities for the grouping -/

theorem tagged_nil : tagged [] = [] := rfl

theorem tagged_cons {g : String × List Entry} {d : List (String × List Entry)} :
    tagged (g :: d) = g.2.map (fun e => (g.1, e)) ++ tagged d := by
  simp [tagged]

theorem sortEntries_perm (mode : SortMode) (l : List Entry) :
    sortEntries mode l ~ l := by
  cases mode <;> exact List.perm_insertionSort _ _

theorem tagged_insertGrouped {k : String} {v : Entry} :
    ∀ {d : List (String × List Entry)},
      tagged (insertGrouped k v d) ~ tagged d ++ [(k, v)] := by
  intro d
  induction d with
  | nil => simp [insertGrouped, tagged]
  | cons g0 rest ih =>
    by_cases hk : g0.1 = k
    · subst hk
      rw [insertGrouped, if_pos rfl, tagged_cons, tagged_cons, List.map_append,
        List.append_assoc]
      simp only [List.map_cons, List.map_nil, List.singleton_append]
      exact (List.perm_middle).trans (List.perm_append_singleton _ _).symm
    · rw [insertGrouped, if_neg hk, tagged_cons, tagged_cons, List.append_assoc]
      exact ih.append_left _

theorem buildAux_tagged :
    ∀ (stars : List Repo) (n : Nat) (rd : List (String × List Entry)) (nd : Snapshot),
      tagged (buildAux stars n rd nd).1 ~ tagged rd ++ taggedAux stars n
  | [], _, rd, _ => by simp [buildAux, taggedAux]
  | s :: rest, n, rd, nd => by
    rw [buildAux]
    refine (buildAux_tagged rest (n + 1) _ _).trans ?_
    rw [taggedAux]
    refine (tagged_insertGrouped.append_right _).trans ?_
    rw [List.append_assoc]
    exact List.Perm.refl _

theorem tagged_sortByKey {d : List (String × List Entry)} :
    tagged (sortByKey d) ~ tagged d :=
  ((List.perm_insertionSort keyLe d).map _).flatten

theorem tagged_sortGroups {mode : SortMode} :
    ∀ {d : List (String × List Entry)}, tagged (sortGroups mode d) ~ tagged d := by
  intro d
  induction d with
  | nil => exact List.Perm.refl _
  | cons g0 rest ih =>
    rw [sortGroups, List.map_cons, tagged_cons, tagged_cons]
    exact (((sortEntries_perm mode g0.2).map _).append ih)

/-- The aggregated mapping holds exactly the fetched records, each
tagged with its language key. -/
theorem aggregate_tagged_perm (mode : SortMode) (stars : List Repo) :
    tagged (aggregate mode stars) ~ taggedEntries stars := by
  refine tagged_sortGroups.trans (tagged_sortByKey.trans ?_)
  simpa [tagged_nil] using buildAux_tagged stars 0 [] []

/-! ## Key uniqueness and totals -/

theorem mem_keys_insertGrouped {a k : String} {v : α} :
    ∀ {d : List (String × List α)},
      a ∈ (insertGrouped k v d).map Prod.fst ↔ a ∈ d.map Prod.fst ∨ a = k := by
  intro d
  induction d with
  | nil => simp [insertGrouped]
  | cons g0 rest ih =>
    by_cases hk : g0.1 = k
    · subst hk
      rw [insertGrouped, if_pos rfl]
      simp only [List.map_cons, List.mem_cons]
      tauto
    · rw [insertGrouped, if_neg hk]
      simp only [List.map_cons, List.mem_cons, ih]
      tauto

theorem keys_nodup_insertGrouped {k : String} {v : α} :
    ∀ {d : List (String × List α)},
      (d.map Prod.fst).Nodup → ((insertGrouped k v d).map Prod.fst).Nodup := by
  intro d
  induction d with
  | nil => simp [insertGrouped]
  | cons g0 rest ih =>
    intro hd
    rw [List.map_cons] at hd
    rcases List.nodup_cons.mp hd with ⟨hg0, hrest⟩
    by_cases hk : g0.1 = k
    · subst hk
      rw [insertGrouped, if_pos rfl, List.map_cons]
      exact hd
    · rw [insertGrouped, if_neg hk, List.map_cons, List.nodup_cons]
      refine ⟨?_, ih hrest⟩
      rw [mem_keys_insertGrouped]
      rintro (h | rfl)
      · exact hg0 h
      · exact hk rfl

theorem buildAux_keys_nodup :
    ∀ (stars : List Repo) (n : Nat) (rd : List (String × List Entry)) (nd : Snapshot),
      (rd.map Prod.fst).Nodup → (((buildAux stars n rd nd).1).map Prod.fst).Nodup
  | [], _, _, _, hd => hd
  | _ :: rest, n, _, _, hd =>
    buildAux_keys_nodup rest (n + 1) _ _ (keys_nodup_insertGrouped hd)

theorem aggregate_keys_nodup (mode : SortMode) (stars : List Repo) :
    ((aggregate mode stars).map Prod.fst).Nodup := by
  have h1 : (((buildDicts stars).1).map Prod.fst).Nodup :=
    buildAux_keys_nodup stars 0 [] [] (by simp)
  have h2 : ((sortByKey (buildDicts stars).1).map Prod.fst).Nodup :=
    (((List.perm_insertionSort keyLe _).map Prod.fst).nodup_iff).mpr h1
  have h3 : (aggregate mode stars).map Prod.fst =
      (sortByKey (buildDicts stars).1).map Prod.fst := by
    simp [aggregate, sortGroups, List.map_map, Function.comp]
  rw [h3]
  exact h2

theorem foldl_add_sum : ∀ (l : List Nat) (n : Nat), l.foldl (· + ·) n = n + l.sum
  | [], n => by simp
  | a :: l, n => by
    rw [List.foldl_cons, List.sum_cons, foldl_add_sum l (n + a)]
    omega

theorem taggedAux_length : ∀ (stars : List Repo) (n : Nat),
    (taggedAux stars n).length = stars.length
  | [], _ => rfl
  | _ :: rest, n => by
    rw [taggedAux, List.length_cons, taggedAux_length rest (n + 1), List.length_cons]

theorem tagged_length {d : List (String × List Entry)} :
    (tagged d).length = (d.map (fun g => g.2.length)).sum := by
  rw [tagged, List.length_flatten, List.map_map]
  congr 1
  simp [Function.comp]

/-- The grand total computed by the sorting loop counts the fetched
records exactly. -/
theorem totalOf_eq_length (mode : SortMode) (stars : List Repo) :
    totalOf mode stars = stars.length := by
  rw [totalOf, foldl_add_sum, Nat.zero_add, ← tagged_length,
    (aggregate_tagged_perm mode stars).length_eq, taggedEntries, taggedAux_length]

/-- Claim C3: every fetched record lands in exactly one language group
(keyed by its language, with the `Others` sentinel when the language is
absent): the groups' tagged contents are a permutation of the fetched
input, group keys are unique, the reported grand total is the number of
fetched records, and an empty input yields an empty mapping with total
`0`. -/
theorem C3_grouping_completeness :
    ∀ (mode : SortMode) (stars : List Repo),
      tagged (aggregate mode stars) ~ taggedEntries stars ∧
      ((aggregate mode stars).map Prod.fst).Nodup ∧
      totalOf mode stars = stars.length ∧
      aggregate mode [] = [] ∧ totalOf mode [] = 0 :=
  fun mode stars =>
    ⟨aggregate_tagged_perm mode stars, aggregate_keys_nodup mode stars,
      totalOf_eq_length mode stars, rfl, rfl⟩

theorem mem_taggedAux {p : String × Entry} :
    ∀ {stars : List Repo} {n : Nat}, p ∈ taggedAux stars n →
      ∃ s ∈ stars, ∃ i, p = (orLanguage s.language, entryOf s i) := by
  intro stars
  induction stars with
  | nil => intro n h; cases h
  | cons s rest ih =>
    intro n h
    rcases List.mem_cons.mp h with rfl | h2
    · exact ⟨s, List.mem_cons_self _ _, n, rfl⟩
    · rcases ih h2 with ⟨s2, hs2, i, hp⟩
      exact ⟨s2, List.mem_cons_of_mem _ hs2, i, hp⟩

theorem mem_tagged_of_groups {g : String × List Entry} {e : Entry} :
    ∀ {d : List (String × List Entry)}, g ∈ d → e ∈ g.2 → (g.1, e) ∈ tagged d := by
  intro d
  induction d with
  | nil => intro h; cases h
  | cons g0 rest ih =>
    intro hg he
    rw [tagged_cons]
    rcases List.mem_cons.mp hg with rfl | hg2
    · exact List.mem_append_left _ (List.mem_map_of_mem _ he)
    · exact List.mem_append_right _ (ih hg2 he)

/-- Every entry of the aggregated mapping comes from a fetched record,
with the sanitized description of that record. -/
theorem aggregate_entry_provenance {mode : SortMode} {stars : List Repo}
    {g : String × List Entry} (hg : g ∈ aggregate mode stars) {e : Entry} (he : e ∈ g.2) :
    ∃ s ∈ stars, ∃ i, g.1 = orLanguage s.language ∧ e = entryOf s i := by
  have h1 : (g.1, e) ∈ tagged (aggregate mode stars) := mem_tagged_of_groups hg he
  have h2 : (g.1, e) ∈ taggedEntries stars := (aggregate_tagged_perm mode stars).subset h1
  rcases mem_taggedAux h2 with ⟨s, hs, i, hp⟩
  rw [Prod.ext_iff] at hp
  exact ⟨s, hs, i, hp.1, hp.2⟩

/-- Claim C4: the stored description of every record is obtained by
HTML-escaping only `<` and `>` (no other character is altered), then
removing all newline characters, then stripping surrounding whitespace;
an absent description becomes the empty string; in particular
`"a<b>\nc"` becomes `"a&lt;b&gt;c"`. -/
theorem C4_description_sanitization :
    (∀ c : Char, c ≠ '<' → c ≠ '>' →
      html_escape (String.singleton c) = String.singleton c) ∧
    html_escape "<" = "&lt;" ∧ html_escape ">" = "&gt;" ∧
    sanitizeDescription none = "" ∧
    (∀ (mode : SortMode) (stars : List Repo), ∀ g ∈ aggregate mode stars, ∀ e ∈ g.2,
      ∃ s ∈ stars, e.description = sanitizeDescription s.description) ∧
    sanitizeDescription (some "a<b>\nc") = "a&lt;b&gt;c" := by
  refine ⟨?_, rfl, rfl, rfl, ?_, by decide⟩
  · intro c h1 h2
    simp [html_escape, String.singleton, h1, h2, String.join]
  · intro mode stars g hg e he
    rcases aggregate_entry_provenance hg he with ⟨s, hs, i, _, he2⟩
    exact ⟨s, hs, by rw [he2]; rfl⟩

/-- Witness for C4 at concrete inputs: the unaffected character `x`,
and a record whose description `" d "` is stored stripped as `"d"`. -/
theorem C4_description_sanitization_witness :
    html_escape (String.singleton 'x') = String.singleton 'x' ∧
    (∃ s ∈ [Repo.mk "a" "u" (some " d ") "o" 1 (some "Go")],
      (Entry.mk "a" "u" "d" "o" 1 0).description = sanitizeDescription s.description) :=
  ⟨C4_description_sanitization.1 'x' (by decide) (by decide),
    C4_description_sanitization.2.2.2.2.1 SortMode.date
      [Repo.mk "a" "u" (some " d ") "o" 1 (some "Go")]
      ("Go", [Entry.mk "a" "u" "d" "o" 1 0]) (by decide)
      (Entry.mk "a" "u" "d" "o" 1 0) (by decide)⟩

/-- Claim C7, counterexample: the heading for language `C#` is not the
claimed `## Language (count)` with each `#` of the language escaped by
inserting a space after it (that would be `## C# (1)`); the source
replaces `#` by `# #`, producing `## C# # (1)`. -/
theorem C7_counterexample :
    headingEcho "C#" 1 ≠
      "## " ++ escapeHashSpec "C#" ++ " (" ++ toString (1 : Nat) ++ ") \n" := by
  decide

/-- Claim C7 (amended): every per-language section heading echoed by the
renderer is `## L (count)` where `L` is the language name with each
literal `#` replaced by `# #` (a space and a second `#` inserted after
it); in particular the heading for `C#` contains `"C# "`. -/
theorem C7_heading_escape :
    ∀ (ty : OutType) (username today : String) (groups : List (String × List Entry))
      (total : Nat), ∀ g ∈ sortByKey groups,
      headingEcho g.1 g.2.length ∈ renderEchoes ty username today groups total ∧
      headingEcho g.1 g.2.length =
        "## " ++ replaceChar '#' "# #" g.1 ++ " (" ++ toString g.2.length ++ ") \n" ∧
      ∃ pre post, headingEcho "C#" 1 = pre ++ "C# " ++ post := by
  intro ty username today groups total g hg
  refine ⟨?_, rfl, "## ", "# (1) \n", by decide⟩
  rw [renderEchoes]
  apply List.mem_cons_of_mem
  refine List.mem_append_left _ (List.mem_append_right _ ?_)
  refine List.mem_flatten.mpr ⟨sectionEchoes ty g.1 g.2, List.mem_map_of_mem _ hg, ?_⟩
  rw [sectionEchoes.eq_def]
  exact List.mem_cons_self _ _

/-- Witness for C7 (amended) on a one-group mapping for language `C#`. -/
theorem C7_heading_escape_witness :
    ((("C#", [Entry.mk "a" "u" "" "o" 1 0]) ∈
        sortByKey [("C#", [Entry.mk "a" "u" "" "o" 1 0])]) ∧
      (headingEcho "C#" 1 ∈ renderEchoes OutType.table "user" "2020-01-02"
        [("C#", [Entry.mk "a" "u" "" "o" 1 0])] 1 ∧
      headingEcho "C#" 1 =
        "## " ++ replaceChar '#' "# #" "C#" ++ " (" ++ toString (1 : Nat) ++ ") \n" ∧
      ∃ pre post, headingEcho "C#" 1 = pre ++ "C# " ++ post)) :=
  ⟨by decide,
    C7_heading_escape OutType.table "user" "2020-01-02"
      [("C#", [Entry.mk "a" "u" "" "o" 1 0])] 1
      ("C#", [Entry.mk "a" "u" "" "o" 1 0]) (by decide)⟩

/-- Claim C2: after aggregation with sort mode `name`, every language
group is in non-decreasing lexicographic order by repository name; with
mode `stars`, in non-increasing order by star count and, among equal
star counts, in their original fetch order (the fetch indices increase);
with the default mode `date`, in non-decreasing order by fetch-sequence
index. -/
theorem C2_sort_correctness :
    ∀ (stars : List Repo) (mode : SortMode) (g : String × List Entry),
      g ∈ aggregate mode stars →
      (mode = SortMode.name → g.2.Pairwise nameLe) ∧
      (mode = SortMode.stars →
        g.2.Pairwise starsGe ∧
        g.2.Pairwise (fun a b => a.stars = b.stars → a.order < b.order)) ∧
      (mode = SortMode.date → g.2.Pairwise dateLe) := by
  intro stars mode g hg
  rcases mem_aggregate hg with ⟨l0, hmem, hsort⟩
  refine ⟨?_, ?_, ?_⟩
  · rintro rfl
    rw [hsort]
    exact List.sorted_insertionSort nameLe l0
  · rintro rfl
    rw [hsort]
    exact ⟨List.sorted_insertionSort starsGe l0,
      insertionSort_starsGe_stable (build_group_orders _ hmem)⟩
  · rintro rfl
    rw [hsort]
    exact List.sorted_insertionSort dateLe l0

/-- Witness for C2 at a concrete input: a two-record star list with a
star-count tie, sorted by `stars`. -/
theorem C2_sort_correctness_witness :
    ((("Go", [Entry.mk "b" "u1" "" "o" 7 0, Entry.mk "a" "u2" "" "o" 7 1]) ∈
        aggregate SortMode.stars
          [Repo.mk "b" "u1" none "o" 7 (some "Go"),
           Repo.mk "a" "u2" none "o" 7 (some "Go")]) ∧
    ([Entry.mk "b" "u1" "" "o" 7 0, Entry.mk "a" "u2" "" "o" 7 1].Pairwise starsGe ∧
      [Entry.mk "b" "u1" "" "o" 7 0, Entry.mk "a" "u2" "" "o" 7 1].Pairwise
        (fun a b => a.stars = b.stars → a.order < b.order))) :=
  ⟨by decide,
    (C2_sort_correctness
      [Repo.mk "b" "u1" none "o" 7 (some "Go"), Repo.mk "a" "u2" none "o" 7 (some "Go")]
      SortMode.stars
      ("Go", [Entry.mk "b" "u1" "" "o" 7 0, Entry.mk "a" "u2" "" "o" 7 1])
      (by decide)).2.1 rfl⟩

/-! ## Frame lemmas for the run -/

theorem publishStep_stdoutRedirected (opts : Options) (today doc : String) (st : RunState) :
    (publishStep opts today doc st).stdoutRedirected = st.stdoutRedirected := by
  unfold publishStep
  by_cases h1 : st.remote.repoExists = true <;>
    by_cases h2 : st.remote.archiveToday = true <;>
    by_cases h3 : opts.launch = true <;>
    simp [h1, h2, h3]

theorem publishStep_outputFile (opts : Options) (today doc : String) (st : RunState) :
    (publishStep opts today doc st).outputFile = st.outputFile := by
  unfold publishStep
  by_cases h1 : st.remote.repoExists = true <;>
    by_cases h2 : st.remote.archiveToday = true <;>
    by_cases h3 : opts.launch = true <;>
    simp [h1, h2, h3]

theorem publishStep_store (opts : Options) (today doc : String) (st : RunState) :
    (publishStep opts today doc st).store = st.store := by
  unfold publishStep
  by_cases h1 : st.remote.repoExists = true <;>
    by_cases h2 : st.remote.archiveToday = true <;>
    by_cases h3 : opts.launch = true <;>
    simp [h1, h2, h3]

theorem publishStep_buffer (opts : Options) (today doc : String) (st : RunState) :
    (publishStep opts today doc st).buffer = st.buffer := by
  unfold publishStep
  by_cases h1 : st.remote.repoExists = true <;>
    by_cases h2 : st.remote.archiveToday = true <;>
    by_cases h3 : opts.launch = true <;>
    simp [h1, h2, h3]

theorem publishStep_stdoutText (opts : Options) (today doc : String) (st : RunState) :
    (publishStep opts today doc st).stdoutText = st.stdoutText := by
  unfold publishStep
  by_cases h1 : st.remote.repoExists = true <;>
    by_cases h2 : st.remote.archiveToday = true <;>
    by_cases h3 : opts.launch = true <;>
    simp [h1, h2, h3]

theorem pipeline_stdoutRedirected (opts : Options) (today : String) (stars : List Repo)
    (st : RunState) :
    (pipeline opts today stars st).stdoutRedirected = st.stdoutRedirected := by
  unfold pipeline
  by_cases hnc : noChangeOf st.store (newSnapshot stars) = true <;>
    by_cases hp : opts.repository = "" <;>
    by_cases ho : stripStr opts.output = "" <;>
    simp [hnc, hp, ho, publishStep_stdoutRedirected]

theorem pipeline_store_changed {opts : Options} {today : String} {stars : List Repo}
    {st : RunState} (hnc : noChangeOf st.store (newSnapshot stars) = false) :
    (pipeline opts today stars st).store = some (newSnapshot stars) := by
  unfold pipeline
  by_cases hp : opts.repository = "" <;>
    by_cases ho : stripStr opts.output = "" <;>
    simp [hnc, hp, ho, publishStep_store]

theorem noChangeOf_none (nd : Snapshot) : noChangeOf none nd = false := rfl

theorem noChangeOf_some_self (nd : Snapshot) : noChangeOf (some nd) nd = true := by
  simp [noChangeOf]

theorem noChangeOf_some_ne {old nd : Snapshot} (h : old ≠ nd) :
    noChangeOf (some old) nd = false := by
  simp [noChangeOf, h]

theorem noChangeOf_ne_store {store : Option Snapshot} {nd : Snapshot}
    (h : store ≠ some nd) : noChangeOf store nd = false := by
  cases store with
  | none => rfl
  | some old => exact noChangeOf_some_ne (fun he => h (by rw [he]))

theorem publishStep_launched (opts : Options) (today doc : String) (st : RunState) :
    (publishStep opts today doc st).launched =
      (if opts.launch = true then true else st.launched) := by
  unfold publishStep
  by_cases h1 : st.remote.repoExists = true <;>
    by_cases h2 : st.remote.archiveToday = true <;>
    by_cases h3 : opts.launch = true <;>
    simp [h1, h2, h3]

/-! ## Run-level claims -/

/-- Claim C1: the run is unchanged exactly when the stored snapshot
structurally equals the newly computed reduced snapshot.  With no prior
snapshot the run counts as changed and the new snapshot is persisted;
unchanged in publish mode aborts with the "no change" error before any
rendering or remote commit; unchanged outside publish mode writes
nothing to the store and rendering proceeds; a differing stored
snapshot is overwritten by the new one. -/
theorem C1_change_detection :
    ∀ (opts : Options) (env : Env) (stars : List Repo),
      env.fetch = Fetch.ok stars →
      tokenMissing opts.token = false →
      (env.store = none → (starred opts env).store = some (newSnapshot stars)) ∧
      (env.store = some (newSnapshot stars) → opts.repository ≠ "" →
        (starred opts env).stderr =
          ["Error: starred repositories not change in " ++ env.today] ∧
        (starred opts env).store = env.store ∧
        (starred opts env).remote = env.remote ∧
        (starred opts env).buffer = some "" ∧
        (starred opts env).launched = false) ∧
      (env.store = some (newSnapshot stars) → opts.repository = "" →
        (starred opts env).store = env.store ∧
        (stripStr opts.output = "" → (starred opts env).stdoutText =
          renderDoc opts.type opts.username env.today (aggregate opts.sort stars)
            (totalOf opts.sort stars)) ∧
        (stripStr opts.output ≠ "" → (starred opts env).outputFile =
          some (renderDoc opts.type opts.username env.today (aggregate opts.sort stars)
            (totalOf opts.sort stars)))) ∧
      (∀ old, env.store = some old → old ≠ newSnapshot stars →
        (starred opts env).store = some (newSnapshot stars)) := by
  intro opts env stars hf ht
  have hm : ¬(opts.repository ≠ "" ∧ tokenMissing opts.token = true) := by simp [ht]
  refine ⟨?_, ?_, ?_, ?_⟩
  · intro hs
    by_cases hp : opts.repository = "" <;>
      simp [starred, hf, hm, ht, hp, hs, initState, pipeline, noChangeOf_none,
        publishStep_store] <;>
      (try split <;> rfl)
  · intro hs hr
    simp [starred, hf, hm, ht, hr, hs, initState, pipeline, noChangeOf_some_self]
  · intro hs hr
    by_cases ho : stripStr opts.output = "" <;>
      simp [starred, hf, hm, ht, hr, hs, ho, initState, pipeline, noChangeOf_some_self]
  · intro old hs hne
    by_cases hp : opts.repository = "" <;>
      simp [starred, hf, hm, ht, hp, hs, initState, pipeline, noChangeOf_some_ne hne,
        publishStep_store] <;>
      (try split <;> rfl)

/-- Witness for C1 at a concrete first-run environment (no stored
snapshot): the run persists the new snapshot. -/
theorem C1_change_detection_witness :
    ((Env.mk "2020-01-03" (Fetch.ok []) none none (Remote.mk false false none)).fetch =
      Fetch.ok []) ∧ tokenMissing (some "t") = false ∧
    ((Env.mk "2020-01-03" (Fetch.ok []) none none (Remote.mk false false none)).store =
      none) ∧
    (starred (Options.mk "u" (some "t") SortMode.date "" none "" false OutType.table)
        (Env.mk "2020-01-03" (Fetch.ok []) none none
          (Remote.mk false false none))).store = some (newSnapshot []) :=
  ⟨rfl, by decide, rfl,
    (C1_change_detection
      (Options.mk "u" (some "t") SortMode.date "" none "" false OutType.table)
      (Env.mk "2020-01-03" (Fetch.ok []) none none (Remote.mk false false none))
      [] rfl (by decide)).1 rfl⟩

/-- Claim C5, counterexample: a run with `--output` naming an existing
file (prior content `"old content"`) that hits an authorization error
does not leave the file intact: `open(output, 'w')` has already
truncated it to empty before the fetch. -/
theorem C5_counterexample :
    (starred
        (Options.mk "u" (some "t") SortMode.date "" none "out.md" false OutType.table)
        (Env.mk "2020-01-01" (Fetch.forbidden "bad credentials") none
          (some "old content") (Remote.mk false false none))).outputFile ≠
      some "old content" ∧
    (starred
        (Options.mk "u" (some "t") SortMode.date "" none "out.md" false OutType.table)
        (Env.mk "2020-01-01" (Fetch.forbidden "bad credentials") none
          (some "old content") (Remote.mk false false none))).outputFile = some "" := by
  decide

/-- Claim C5 (amended): on an authorization error the run reports the
error and aborts without writing the snapshot store, the remote, or any
rendered output — but the `--output` file has already been opened for
writing at run start, so an existing file at that path is left
truncated to empty rather than intact. -/
theorem C5_auth_failure_aborts :
    ∀ (opts : Options) (env : Env) (msg : String),
      env.fetch = Fetch.forbidden msg →
      ¬(opts.repository ≠ "" ∧ tokenMissing opts.token = true) →
      (starred opts env).store = env.store ∧
      (starred opts env).remote = env.remote ∧
      (starred opts env).launched = false ∧
      (starred opts env).stdoutText = "" ∧
      (starred opts env).stderr = ["Error: talk to Github failed: " ++ msg] ∧
      (starred opts env).outputFile =
        (if stripStr opts.output = "" then env.outputPrior else some "") := by
  intro opts env msg hf hm
  by_cases hp : opts.repository = "" <;>
    simp_all [starred, initState]

/-- Witness for C5 (amended) at a concrete environment. -/
theorem C5_auth_failure_aborts_witness :
    ((Env.mk "2020-01-01" (Fetch.forbidden "denied") none (some "keep")
        (Remote.mk true true (some "r"))).fetch = Fetch.forbidden "denied") ∧
    ¬(("" : String) ≠ "" ∧ tokenMissing none = true) ∧
    (starred (Options.mk "u" none SortMode.date "" none "" false OutType.list)
        (Env.mk "2020-01-01" (Fetch.forbidden "denied") none (some "keep")
          (Remote.mk true true (some "r")))).store = none :=
  ⟨rfl, by decide,
    (C5_auth_failure_aborts
      (Options.mk "u" none SortMode.date "" none "" false OutType.list)
      (Env.mk "2020-01-01" (Fetch.forbidden "denied") none (some "keep")
        (Remote.mk true true (some "r")))
      "denied" rfl (by decide)).1⟩

/-- Claim C6, counterexample: a publish-mode run that completes
successfully ends with the process stdout still redirected to the
in-memory buffer — the source never restores `sys.stdout`. -/
theorem C6_counterexample :
    (starred
        (Options.mk "u" (some "t") SortMode.date "repo" none "" false OutType.table)
        (Env.mk "2020-01-01" (Fetch.ok []) none none
          (Remote.mk false false none))).stdoutRedirected = true := by
  decide

/-- Claim C6 (amended): in publish mode (with a token) the process
stdout is redirected to the in-memory buffer, and it is never restored
by the function on any path; a missing token aborts before the
redirection; outside publish mode stdout is never redirected. -/
theorem C6_stdout_redirection :
    ∀ (opts : Options) (env : Env),
      (opts.repository ≠ "" → tokenMissing opts.token = false →
        (starred opts env).stdoutRedirected = true) ∧
      (opts.repository ≠ "" → tokenMissing opts.token = true →
        (starred opts env).stdoutRedirected = false) ∧
      (opts.repository = "" → (starred opts env).stdoutRedirected = false) := by
  intro opts env
  refine ⟨?_, ?_, ?_⟩
  · intro hr ht
    have hm : ¬(opts.repository ≠ "" ∧ tokenMissing opts.token = true) := by simp [ht]
    cases hf : env.fetch with
    | forbidden msg => simp [starred, hf, hm, hr, ht, initState]
    | ok stars => simp [starred, hf, hm, hr, ht, initState, pipeline_stdoutRedirected]
  · intro hr ht
    simp [starred, hr, ht, initState]
  · intro hr
    cases hf : env.fetch with
    | forbidden msg => simp [starred, hf, hr, initState]
    | ok stars => simp [starred, hf, hr, initState, pipeline_stdoutRedirected]

/-- Witness for C6 (amended) at a concrete publish-mode environment. -/
theorem C6_stdout_redirection_witness :
    (("repo" : String) ≠ "") ∧ tokenMissing (some "t") = false ∧
    (starred (Options.mk "u" (some "t") SortMode.date "repo" none "" false OutType.table)
        (Env.mk "2020-01-01" (Fetch.ok []) none none
          (Remote.mk false false none))).stdoutRedirected = true :=
  ⟨by decide, rfl,
    (C6_stdout_redirection
      (Options.mk "u" (some "t") SortMode.date "repo" none "" false OutType.table)
      (Env.mk "2020-01-01" (Fetch.ok []) none none (Remote.mk false false none))).1
      (by decide) rfl⟩

/-- Claim C8: in publish mode, when the target repository exists and
already holds today's archive file, the run reports the
duplicate-archive error and writes nothing to the remote: neither
`README.md` nor any archive is created or updated. -/
theorem C8_duplicate_archive :
    ∀ (opts : Options) (env : Env) (stars : List Repo),
      env.fetch = Fetch.ok stars →
      tokenMissing opts.token = false →
      opts.repository ≠ "" →
      env.store ≠ some (newSnapshot stars) →
      env.remote.repoExists = true →
      env.remote.archiveToday = true →
      (starred opts env).remote = env.remote ∧
      (starred opts env).stderr =
        ["Error: already commit [/Archives/README-" ++ env.today ++ ".md]"] := by
  intro opts env stars hf ht hr hch hre hat
  have hm : ¬(opts.repository ≠ "" ∧ tokenMissing opts.token = true) := by simp [ht]
  by_cases hl : opts.launch = true <;>
    simp [starred, hf, hm, ht, hr, initState, pipeline, noChangeOf_ne_store hch,
      publishStep, hre, hat, hl]

/-- Witness for C8 at a concrete environment whose remote already holds
today's archive. -/
theorem C8_duplicate_archive_witness :
    ((Env.mk "2020-01-04" (Fetch.ok []) none none (Remote.mk true true (some "r"))).store ≠
      some (newSnapshot [])) ∧
    (starred (Options.mk "u" (some "t") SortMode.date "repo" none "" false OutType.table)
        (Env.mk "2020-01-04" (Fetch.ok []) none none
          (Remote.mk true true (some "r")))).remote = Remote.mk true true (some "r") :=
  ⟨by decide,
    (C8_duplicate_archive
      (Options.mk "u" (some "t") SortMode.date "repo" none "" false OutType.table)
      (Env.mk "2020-01-04" (Fetch.ok []) none none (Remote.mk true true (some "r")))
      [] rfl (by decide) (by decide) (by decide) rfl rfl).1⟩

/-- Claim C9, counterexample: a publish-mode run that ends in the
reported duplicate-archive error still launches the browser when the
launch flag is set. -/
theorem C9_counterexample :
    (starred (Options.mk "u" (some "t") SortMode.date "repo" none "" true OutType.table)
        (Env.mk "2020-01-05" (Fetch.ok []) none none
          (Remote.mk true true (some "r")))).launched = true ∧
    (starred (Options.mk "u" (some "t") SortMode.date "repo" none "" true OutType.table)
        (Env.mk "2020-01-05" (Fetch.ok []) none none
          (Remote.mk true true (some "r")))).stderr =
      ["Error: already commit [/Archives/README-2020-01-05.md]"] := by
  decide

/-- Claim C9 (amended): with the launch flag set, the browser is opened
whenever the run reaches the publish section — after a successful
publish and equally after the duplicate-archive error; runs that abort
earlier (no publish mode, authorization failure, missing token, or the
no-change abort) never launch it. -/
theorem C9_browser_launch :
    ∀ (opts : Options) (env : Env) (stars : List Repo),
      (opts.repository = "" → (starred opts env).launched = false) ∧
      (∀ msg, env.fetch = Fetch.forbidden msg → (starred opts env).launched = false) ∧
      (opts.repository ≠ "" → tokenMissing opts.token = true →
        (starred opts env).launched = false) ∧
      (env.fetch = Fetch.ok stars → tokenMissing opts.token = false →
        opts.repository ≠ "" → env.store = some (newSnapshot stars) →
        (starred opts env).launched = false) ∧
      (env.fetch = Fetch.ok stars → tokenMissing opts.token = false →
        opts.repository ≠ "" → env.store ≠ some (newSnapshot stars) →
        (starred opts env).launched = opts.launch ∧
        (env.remote.repoExists = true → env.remote.archiveToday = true →
          (starred opts env).stderr =
            ["Error: already commit [/Archives/README-" ++ env.today ++ ".md]"])) := by
  intro opts env stars
  refine ⟨?_, ?_, ?_, ?_, ?_⟩
  · intro hp
    cases hf : env.fetch with
    | forbidden msg => simp [starred, hf, hp, initState]
    | ok stars2 =>
      by_cases hnc : noChangeOf env.store (newSnapshot stars2) = true <;>
        by_cases ho : stripStr opts.output = "" <;>
        simp [starred, hf, hp, initState, pipeline, hnc, ho]
  · intro msg hf
    by_cases hp : opts.repository = "" <;>
      by_cases ht : tokenMissing opts.token = true <;>
      simp [starred, hf, hp, ht, initState]
  · intro hr ht
    simp [starred, hr, ht, initState]
  · intro hf ht hr hs
    have hm : ¬(opts.repository ≠ "" ∧ tokenMissing opts.token = true) := by simp [ht]
    simp [starred, hf, hm, ht, hr, hs, initState, pipeline, noChangeOf_some_self]
  · intro hf ht hr hch
    have hm : ¬(opts.repository ≠ "" ∧ tokenMissing opts.token = true) := by simp [ht]
    constructor
    · by_cases hl : opts.launch = true <;>
        simp [starred, hf, hm, ht, hr, initState, pipeline, noChangeOf_ne_store hch,
          publishStep_launched, hl]
    · intro hre hat
      by_cases hl : opts.launch = true <;>
        simp [starred, hf, hm, ht, hr, initState, pipeline, noChangeOf_ne_store hch,
          publishStep, hre, hat, hl]

/-- Witness for C9 (amended): a duplicate-archive publish run with the
launch flag set does launch the browser. -/
theorem C9_browser_launch_witness :
    (("repo" : String) ≠ "") ∧
    ((Env.mk "2020-01-05" (Fetch.ok []) none none (Remote.mk true true (some "r"))).store ≠
      some (newSnapshot [])) ∧
    (starred (Options.mk "u" (some "t") SortMode.date "repo" none "" true OutType.table)
        (Env.mk "2020-01-05" (Fetch.ok []) none none
          (Remote.mk true true (some "r")))).launched = true :=
  ⟨by decide, by decide,
    ((C9_browser_launch
      (Options.mk "u" (some "t") SortMode.date "repo" none "" true OutType.table)
      (Env.mk "2020-01-05" (Fetch.ok []) none none (Remote.mk true true (some "r")))
      []).2.2.2.2 rfl rfl (by decide) (by decide)).1⟩

/-- Claim C10: when the fetched stars differ from the stored snapshot,
the snapshot file is overwritten before rendering or publishing; hence
a publish-mode run that then fails on the duplicate-archive error has
already stored the new snapshot, and an immediately retried run with
identical star data aborts with the "no change" error without touching
the remote. -/
theorem C10_snapshot_before_publish :
    ∀ (opts : Options) (env : Env) (stars : List Repo) (old : Snapshot),
      env.fetch = Fetch.ok stars →
      tokenMissing opts.token = false →
      opts.repository ≠ "" →
      env.store = some old → old ≠ newSnapshot stars →
      (starred opts env).store = some (newSnapshot stars) ∧
      (env.remote.repoExists = true → env.remote.archiveToday = true →
        (starred opts env).remote = env.remote) ∧
      (∀ env2 : Env, env2.fetch = Fetch.ok stars →
        env2.store = some (newSnapshot stars) →
        (starred opts env2).stderr =
          ["Error: starred repositories not change in " ++ env2.today] ∧
        (starred opts env2).remote = env2.remote ∧
        (starred opts env2).launched = false ∧
        (starred opts env2).store = env2.store) := by
  intro opts env stars old hf ht hr hs hne
  have hm : ¬(opts.repository ≠ "" ∧ tokenMissing opts.token = true) := by simp [ht]
  refine ⟨?_, ?_, ?_⟩
  · simp [starred, hf, hm, ht, hr, hs, initState, pipeline, noChangeOf_some_ne hne,
      publishStep_store]
  · intro hre hat
    by_cases hl : opts.launch = true <;>
      simp [starred, hf, hm, ht, hr, hs, initState, pipeline, noChangeOf_some_ne hne,
        publishStep, hre, hat, hl]
  · intro env2 hf2 hs2
    simp [starred, hf2, hm, ht, hr, hs2, initState, pipeline, noChangeOf_some_self]

/-- Witness for C10: a failed duplicate-archive publish has stored the
new snapshot, and the retry aborts with the no-change error. -/
theorem C10_snapshot_before_publish_witness :
    ((Env.mk "2020-01-06" (Fetch.ok []) (some [("Go", [("a", "u")])]) none
        (Remote.mk true true (some "r"))).store = some [("Go", [("a", "u")])]) ∧
    ([("Go", [("a", "u")])] ≠ newSnapshot []) ∧
    (starred (Options.mk "u" (some "t") SortMode.date "repo" none "" false OutType.table)
        (Env.mk "2020-01-06" (Fetch.ok []) (some [("Go", [("a", "u")])]) none
          (Remote.mk true true (some "r")))).store = some (newSnapshot []) :=
  ⟨rfl, by decide,
    (C10_snapshot_before_publish
      (Options.mk "u" (some "t") SortMode.date "repo" none "" false OutType.table)
      (Env.mk "2020-01-06" (Fetch.ok []) (some [("Go", [("a", "u")])]) none
        (Remote.mk true true (some "r")))
      [] [("Go", [("a", "u")])] rfl (by decide) (by decide) rfl (by decide)).1⟩

end Starred
